import Mathlib

/-!
Verification of the CERT disaster-preparedness record application
(`cert_disaster_app.py`): a shallow embedding of its validators, its
CSV-import pipeline, and its interactive add/edit flows, with theorems
about the claims of the specification.

Conventions of the embedding:
* SQLite values are modelled by `SqlVal` (null, numeric, or text), since
  the application stores loosely typed values.
* A pandas cell is `Option String`: `none` models NaN (a blank CSV cell),
  `some s` the string content.
* Timestamps are abstract clock values (`Nat`); `datetime.now()` becomes an
  explicit `now` parameter.  ISO timestamp strings compare like their clock
  values, so order-facts transfer.
* The regular expressions of the source are embedded as sequences of
  character-class repetitions (`Piece`); every regex of the source file is
  of this shape (phone needs a two-way alternation).  `$` is modelled as
  end of string and character classes as their ASCII reading.
-/

/-- One regex piece: between `lo` and `hi` (`none` = unbounded) repetitions
of a character in class `cls`. -/
structure Piece where
  cls : Char → Bool
  lo : Nat
  hi : Option Nat

/-- Largest repetition count of `pc` worth trying on `s` (bounded by the
maximal class-prefix of `s` and by `pc.hi`). -/
def pieceUpper (pc : Piece) (s : List Char) : Nat :=
  match pc.hi with
  | none => (s.takeWhile pc.cls).length
  | some h => min h (s.takeWhile pc.cls).length

/-- Backtracking matcher for a sequence of pieces against a whole string. -/
def matchPieces : List Piece → List Char → Bool
  | [], s => s.isEmpty
  | pc :: ps, s =>
    (List.range (pieceUpper pc s + 1)).any
      (fun n => decide (pc.lo ≤ n) && matchPieces ps (s.drop n))

/-- A block `u` realizes piece `pc`: all characters in class, length within
the piece's bounds. -/
def PieceFits (pc : Piece) (u : List Char) : Prop :=
  (∀ c ∈ u, pc.cls c = true) ∧ pc.lo ≤ u.length ∧
    (∀ h, pc.hi = some h → u.length ≤ h)

/-- Declarative language of a piece sequence: the string splits into
consecutive blocks, one per piece. -/
def PiecesMatch : List Piece → List Char → Prop
  | [], s => s = []
  | pc :: ps, s => ∃ u v, s = u ++ v ∧ PieceFits pc u ∧ PiecesMatch ps v

/-- Python regex whitespace class `\s` (ASCII part). -/
def isPyWhitespace (c : Char) : Bool :=
  c = ' ' || c = '\t' || c = '\n' || c = '\r' || c = '\x0b' || c = '\x0c'

/-- Regex `.`: any character except a newline. -/
def isDotChar (c : Char) : Bool :=
  !(c = '\n')

/-- Regex class `[A-Za-z .]` used for the city part. -/
def isCityChar (c : Char) : Bool :=
  c.isAlpha || c = ' ' || c = '.'

/-- Regex class `[-\s.]` used as a phone group separator. -/
def isPhoneSep (c : Char) : Bool :=
  c = '-' || isPyWhitespace c || c = '.'

/-- Regex class `[A-Za-z0-9._%+-]` for the email local part. -/
def isLocalChar (c : Char) : Bool :=
  c.isAlphanum || c = '.' || c = '_' || c = '%' || c = '+' || c = '-'

/-- Regex class `[A-Za-z0-9.-]` for the email domain part. -/
def isDomainChar (c : Char) : Bool :=
  c.isAlphanum || c = '.' || c = '-'

/-- `ADDRESS_REGEX` of the source,
`^\d+\s+.+,\s*[A-Za-z .]+,\s*[A-Z]{2}\s+\d{5}$`, as a piece sequence. -/
def ADDRESS_REGEX : List Piece :=
  [⟨Char.isDigit, 1, none⟩,
   ⟨isPyWhitespace, 1, none⟩,
   ⟨isDotChar, 1, none⟩,
   ⟨fun c => c = ',', 1, some 1⟩,
   ⟨isPyWhitespace, 0, none⟩,
   ⟨isCityChar, 1, none⟩,
   ⟨fun c => c = ',', 1, some 1⟩,
   ⟨isPyWhitespace, 0, none⟩,
   ⟨Char.isUpper, 2, some 2⟩,
   ⟨isPyWhitespace, 1, none⟩,
   ⟨Char.isDigit, 5, some 5⟩]

/-- `PHONE_REGEX` of the source,
`^\s*(\(\d{3}\)|\d{3})[-\s.]?\d{3}[-\s.]?\d{4}\s*$`: the alternation is
embedded as the two alternative piece sequences. -/
def PHONE_REGEX : List (List Piece) :=
  [[⟨isPyWhitespace, 0, none⟩,
    ⟨fun c => c = '(', 1, some 1⟩,
    ⟨Char.isDigit, 3, some 3⟩,
    ⟨fun c => c = ')', 1, some 1⟩,
    ⟨isPhoneSep, 0, some 1⟩,
    ⟨Char.isDigit, 3, some 3⟩,
    ⟨isPhoneSep, 0, some 1⟩,
    ⟨Char.isDigit, 4, some 4⟩,
    ⟨isPyWhitespace, 0, none⟩],
   [⟨isPyWhitespace, 0, none⟩,
    ⟨Char.isDigit, 3, some 3⟩,
    ⟨isPhoneSep, 0, some 1⟩,
    ⟨Char.isDigit, 3, some 3⟩,
    ⟨isPhoneSep, 0, some 1⟩,
    ⟨Char.isDigit, 4, some 4⟩,
    ⟨isPyWhitespace, 0, none⟩]]

/-- `EMAIL_REGEX` of the source,
`^[A-Za-z0-9._%+-]+@[A-Za-z0-9.-]+\.[A-Za-z]{2,}$`. -/
def EMAIL_REGEX : List Piece :=
  [⟨isLocalChar, 1, none⟩,
   ⟨fun c => c = '@', 1, some 1⟩,
   ⟨isDomainChar, 1, none⟩,
   ⟨fun c => c = '.', 1, some 1⟩,
   ⟨Char.isAlpha, 2, none⟩]

/-- `validate_address` of the source: the address matches `ADDRESS_REGEX`. -/
def validate_address (address : String) : Bool :=
  matchPieces ADDRESS_REGEX address.data

/-- A pandas cell: `none` is NaN (blank/missing), `some s` a string value. -/
abbrev Cell := Option String

/-- Python `str.strip()` over the character list (whitespace from both
ends); written over lists because the kernel cannot reduce `String.trim`. -/
def pyStrip (s : String) : String :=
  ⟨((s.data.dropWhile isPyWhitespace).reverse.dropWhile isPyWhitespace).reverse⟩

/-- Python `str.lower()` (ASCII case folding). -/
def pyLower (s : String) : String :=
  ⟨s.data.map Char.toLower⟩

/-- `validate_phone` of the source: NaN or blank is valid, otherwise the
value must match `PHONE_REGEX`. -/
def validate_phone (phone : Cell) : Bool :=
  match phone with
  | none => true
  | some s =>
    if pyStrip s = "" then true
    else PHONE_REGEX.any (fun alt => matchPieces alt s.data)

/-- `validate_email` of the source: NaN or blank is valid, otherwise the
value must match `EMAIL_REGEX`. -/
def validate_email (email : Cell) : Bool :=
  match email with
  | none => true
  | some s =>
    if pyStrip s = "" then true
    else matchPieces EMAIL_REGEX s.data

/-- An SQLite value as stored by the application: NULL, a number, or text.
SQLite columns are dynamically typed, and the application does store text
in INTEGER columns (blank interactive answers), so one value type covers
all fields. -/
inductive SqlVal where
  | null
  | num (q : ℚ)
  | text (s : String)
deriving DecidableEq, Inhabited

/-- One stored row of the `households` table, without the id key.  The
timestamp columns are abstract clock values. -/
structure DbRecord where
  address : SqlVal
  adults : SqlVal
  children : SqlVal
  pets : SqlVal
  dogs : SqlVal
  critical_meds : SqlVal
  meds_need_refrigerated : SqlVal
  has_special_needs : SqlVal
  has_propane_tank : SqlVal
  has_natural_gas : SqlVal
  phone : SqlVal
  email : SqlVal
  has_medical_training : SqlVal
  know_neighbors : SqlVal
  has_neighbors_key : SqlVal
  wants_newsletter : SqlVal
  can_cert_contact : SqlVal
  created_at : Nat
  updated_at : Nat
deriving DecidableEq, Inhabited

/-- The `households` table: id-keyed rows plus the AUTOINCREMENT counter. -/
structure Db where
  rows : List (Nat × DbRecord)
  nextId : Nat
deriving DecidableEq

/-- Pair each element of a list with consecutive indices starting at `n`. -/
def withIdx {α : Type} : Nat → List α → List (Nat × α)
  | _, [] => []
  | n, a :: t => (n, a) :: withIdx (n + 1) t

/-- NOT NULL constraints of the `households` schema on the mandatory
columns (see `init_db` in the source). -/
def notNullOk (r : DbRecord) : Bool :=
  decide (r.address ≠ SqlVal.null) && decide (r.adults ≠ SqlVal.null) &&
  decide (r.children ≠ SqlVal.null) && decide (r.pets ≠ SqlVal.null) &&
  decide (r.critical_meds ≠ SqlVal.null) &&
  decide (r.has_special_needs ≠ SqlVal.null) &&
  decide (r.has_propane_tank ≠ SqlVal.null) &&
  decide (r.has_natural_gas ≠ SqlVal.null)

/-- The `executemany` INSERT plus `commit` of `import_csv`: all-or-nothing
(a constraint failure raises before the commit, so nothing is durably
persisted). `none` models the raised `IntegrityError`. -/
def dbInsertMany (db : Db) (recs : List DbRecord) : Option Db :=
  if recs.all notNullOk then
    some ⟨db.rows ++ withIdx db.nextId recs, db.nextId + recs.length⟩
  else none

/-- One raw CSV row, one cell per required column (`none` = blank = NaN). -/
structure Row where
  address : Cell
  adults : Cell
  children : Cell
  pets : Cell
  dogs : Cell
  critical_meds : Cell
  meds_need_refrigerated : Cell
  has_special_needs : Cell
  has_propane_tank : Cell
  has_natural_gas : Cell
  phone : Cell
  email : Cell
  has_medical_training : Cell
  know_neighbors : Cell
  has_neighbors_key : Cell
  wants_newsletter : Cell
  can_cert_contact : Cell
deriving DecidableEq

/-- An input file as read by pandas: its header columns and its rows. -/
structure Frame where
  header : List String
  rows : List Row
deriving DecidableEq

/-- `CSV_COLUMNS` of the source. -/
def CSV_COLUMNS : List String :=
  ["address", "adults", "children", "pets", "dogs", "critical_meds",
   "meds_need_refrigerated", "has_special_needs", "has_propane_tank",
   "has_natural_gas", "phone", "email", "has_medical_training",
   "know_neighbors", "has_neighbors_key", "wants_newsletter",
   "can_cert_contact"]

/-- Python `str()` of a pandas cell, as done by `astype(str)`: NaN prints
as the string `nan`. -/
def pythonStr : Cell → String
  | none => "nan"
  | some s => s

/-- The literal dict inside `boolean_converter`; `none` means the key is
missing from the dict. -/
def booleanTokenDict (t : String) : Option SqlVal :=
  if t = "yes" ∨ t = "y" ∨ t = "true" ∨ t = "1" then some (SqlVal.num 1)
  else if t = "no" ∨ t = "n" ∨ t = "false" ∨ t = "0" then some (SqlVal.num 0)
  else if t = "" ∨ t = "nan" then some SqlVal.null
  else none

/-- `boolean_converter` of the source:
`astype(str).str.strip().str.lower().map(dict)` applied to one cell.
pandas `Series.map` sends every token missing from the dict to NaN, which
SQLite stores as NULL. -/
def boolean_converter (c : Cell) : SqlVal :=
  (booleanTokenDict (pyLower (pyStrip (pythonStr c)))).getD SqlVal.null

/-- Numeric value of a digit list (most significant first). -/
def digitsVal (l : List Char) : Nat :=
  l.foldl (fun n c => 10 * n + (c.toNat - 48)) 0

/-- Unsigned decimal parse: digits, or digits with a decimal point
(`3`, `3.5`, `3.`, `.5`). -/
def parseUnsigned (cs : List Char) : Option ℚ :=
  let ip := cs.takeWhile Char.isDigit
  let rest := cs.drop ip.length
  match rest with
  | [] => if ip = [] then none else some ((digitsVal ip : ℚ))
  | '.' :: fs =>
    if fs.all Char.isDigit = true ∧ (ip ≠ [] ∨ fs ≠ []) then
      some ((digitsVal ip : ℚ) + (digitsVal fs : ℚ) / ((10 : ℚ) ^ fs.length))
    else none
  | _ => none

/-- Modelled from pandas `to_numeric(errors="raise")` on one string value:
an optional sign followed by a decimal literal (the exponent and infinity
forms pandas also accepts play no role for this program's claims). -/
def parseDecimal (s : String) : Option ℚ :=
  match (pyStrip s).data with
  | '-' :: cs => (parseUnsigned cs).map (fun q => -q)
  | '+' :: cs => parseUnsigned cs
  | cs => parseUnsigned cs

/-- `pd.to_numeric` on one cell: NaN passes through, a string must parse.
`none` models the raised conversion error. -/
def toNumeric : Cell → Option SqlVal
  | none => some SqlVal.null
  | some s => (parseDecimal s).map SqlVal.num

/-- A raw text cell bound into the database: NaN becomes NULL. -/
def textCell : Cell → SqlVal
  | none => SqlVal.null
  | some s => SqlVal.text s

/-- The record `import_csv` inserts for one row after all conversions,
stamped with the shared import timestamp. -/
def buildRecord (r : Row) (now : Nat) : DbRecord where
  address := textCell r.address
  adults := (toNumeric r.adults).getD SqlVal.null
  children := (toNumeric r.children).getD SqlVal.null
  pets := boolean_converter r.pets
  dogs := boolean_converter r.dogs
  critical_meds := boolean_converter r.critical_meds
  meds_need_refrigerated := boolean_converter r.meds_need_refrigerated
  has_special_needs := boolean_converter r.has_special_needs
  has_propane_tank := boolean_converter r.has_propane_tank
  has_natural_gas := boolean_converter r.has_natural_gas
  phone := textCell r.phone
  email := textCell r.email
  has_medical_training := boolean_converter r.has_medical_training
  know_neighbors := boolean_converter r.know_neighbors
  has_neighbors_key := boolean_converter r.has_neighbors_key
  wants_newsletter := boolean_converter r.wants_newsletter
  can_cert_contact := boolean_converter r.can_cert_contact
  created_at := now
  updated_at := now

/-- Required columns absent from the file header. -/
def missing_columns (f : Frame) : List String :=
  CSV_COLUMNS.filter (fun c => !(f.header.contains c))

/-- `validate_address` is applied unguarded to every address cell, so a
NaN cell raises a `TypeError` inside `apply`. -/
def anyNaAddress (f : Frame) : Bool :=
  f.rows.any (fun r => r.address.isNone)

/-- Offending rows printed for the address stage (index and value). -/
def badAddressRows (f : Frame) : List (Nat × String) :=
  (withIdx 0 f.rows).filterMap (fun p =>
    if validate_address ((p.2).address.getD "") then none
    else some (p.1, (p.2).address.getD ""))

/-- Offending rows printed for the phone stage. -/
def badPhoneRows (f : Frame) : List (Nat × Cell) :=
  (withIdx 0 f.rows).filterMap (fun p =>
    if validate_phone (p.2).phone then none else some (p.1, (p.2).phone))

/-- Offending rows printed for the email stage. -/
def badEmailRows (f : Frame) : List (Nat × Cell) :=
  (withIdx 0 f.rows).filterMap (fun p =>
    if validate_email (p.2).email then none else some (p.1, (p.2).email))

/-- The conditional check of `import_csv` on dogs: `pets == 0` while
`dogs` is not NaN (after boolean conversion). -/
def dogsViolation (r : Row) : Bool :=
  decide (boolean_converter r.pets = SqlVal.num 0) &&
    decide (boolean_converter r.dogs ≠ SqlVal.null)

/-- The conditional check of `import_csv` on refrigerated meds. -/
def medsViolation (r : Row) : Bool :=
  decide (boolean_converter r.critical_meds = SqlVal.num 0) &&
    decide (boolean_converter r.meds_need_refrigerated ≠ SqlVal.null)

/-- Offending rows printed for the dogs check: index with the converted
`pets` and `dogs` values. -/
def badDogsRows (f : Frame) : List (Nat × SqlVal × SqlVal) :=
  (withIdx 0 f.rows).filterMap (fun p =>
    if dogsViolation p.2 then
      some (p.1, boolean_converter (p.2).pets, boolean_converter (p.2).dogs)
    else none)

/-- Offending rows printed for the refrigerated-meds check. -/
def badMedsRows (f : Frame) : List (Nat × SqlVal × SqlVal) :=
  (withIdx 0 f.rows).filterMap (fun p =>
    if medsViolation p.2 then
      some (p.1, boolean_converter (p.2).critical_meds,
            boolean_converter (p.2).meds_need_refrigerated)
    else none)

/-- How one call of `import_csv` ends. -/
inductive ImportOutcome where
  | abortedMissingColumns (cols : List String)
  | typeErrorCrash
  | abortedInvalidAddress (bad : List (Nat × String))
  | abortedInvalidPhone (bad : List (Nat × Cell))
  | abortedInvalidEmail (bad : List (Nat × Cell))
  | abortedInvalidInteger
  | abortedDogsWithoutPets (bad : List (Nat × SqlVal × SqlVal))
  | abortedMedsWithoutCritical (bad : List (Nat × SqlVal × SqlVal))
  | integrityErrorCrash
  | ok
deriving DecidableEq

/-- `import_csv` of the source, from the point where the file is already
read into a frame: the staged validation, the conversions, and the final
insert, in source order.  The untouched or unchanged database is returned
alongside the outcome. -/
def import_csv (db : Db) (f : Frame) (now : Nat) : ImportOutcome × Db :=
  if missing_columns f ≠ [] then
    (ImportOutcome.abortedMissingColumns (missing_columns f), db)
  else if anyNaAddress f then (ImportOutcome.typeErrorCrash, db)
  else if f.rows.any (fun r => !validate_address (r.address.getD "")) then
    (ImportOutcome.abortedInvalidAddress (badAddressRows f), db)
  else if f.rows.any (fun r => !validate_phone r.phone) then
    (ImportOutcome.abortedInvalidPhone (badPhoneRows f), db)
  else if f.rows.any (fun r => !validate_email r.email) then
    (ImportOutcome.abortedInvalidEmail (badEmailRows f), db)
  else if f.rows.any (fun r =>
      (toNumeric r.adults).isNone || (toNumeric r.children).isNone) then
    (ImportOutcome.abortedInvalidInteger, db)
  else if f.rows.any dogsViolation then
    (ImportOutcome.abortedDogsWithoutPets (badDogsRows f), db)
  else if f.rows.any medsViolation then
    (ImportOutcome.abortedMedsWithoutCritical (badMedsRows f), db)
  else
    match dbInsertMany db (f.rows.map (fun r => buildRecord r now)) with
    | some db2 => (ImportOutcome.ok, db2)
    | none => (ImportOutcome.integrityErrorCrash, db)

/-- The `value_type` argument of `edit_prompt_and_validation`. -/
inductive VKind where
  | bool
  | int
  | str
deriving DecidableEq

/-- Which prompt string a `str` field carries (the source dispatches on
`prompt.lower()` being `address`, `phone number`, or `email address`). -/
inductive PKind where
  | address
  | phone
  | email
  | other
deriving DecidableEq

/-- `edit_prompt_and_validation` of the source, as one iteration of its
re-prompt loop on a single raw input line: `some v` is the value the loop
returns for that input, `none` means the input is rejected (or is blank on
a mandatory field) and the loop prompts again.  The loop only ever returns
through an accepting branch, so the accepted values of a field are exactly
the `some` results of this function. -/
def edit_prompt_and_validation (vk : VKind) (pk : PKind) (mandatory : Bool)
    (current : SqlVal) (raw : String) : Option SqlVal :=
  let inputVal := if vk = VKind.bool then pyLower (pyStrip raw) else pyStrip raw
  if inputVal = "" then
    if mandatory then none else some current
  else
    match vk with
    | VKind.bool =>
      if inputVal = "yes" ∨ inputVal = "y" ∨ inputVal = "true" ∨ inputVal = "1" then
        some (SqlVal.num 1)
      else if inputVal = "no" ∨ inputVal = "n" ∨ inputVal = "false" ∨ inputVal = "0" then
        some (SqlVal.num 0)
      else none
    | VKind.int =>
      if inputVal.data.all Char.isDigit then
        some (SqlVal.num (digitsVal inputVal.data))
      else none
    | VKind.str =>
      match pk with
      | PKind.address =>
        if validate_address inputVal then some (SqlVal.text inputVal) else none
      | PKind.phone =>
        if validate_phone (some inputVal) then some (SqlVal.text inputVal) else none
      | PKind.email =>
        if validate_email (some inputVal) then some (SqlVal.text inputVal) else none
      | PKind.other => some (SqlVal.text inputVal)

/-- The raw input lines a user finally gets accepted for each prompted
field of the add or edit flow (one string per field, in prompt order). -/
structure Inputs where
  address : String
  adults : String
  children : String
  pets : String
  dogs : String
  critical_meds : String
  meds_need_refrigerated : String
  has_special_needs : String
  has_propane_tank : String
  has_natural_gas : String
  phone : String
  email : String
  has_medical_training : String
  know_neighbors : String
  has_neighbors_key : String
  wants_newsletter : String
  can_cert_contact : String
deriving DecidableEq

/-- The follow-up question for a conditional field: only asked when the
just-collected trigger value is 1, otherwise forced to `None` without
prompting. -/
def conditionalPrompt (trigger current : SqlVal) (raw : String) : Option SqlVal :=
  if trigger = SqlVal.num 1 then
    edit_prompt_and_validation VKind.bool PKind.other false current raw
  else some SqlVal.null

/-- The address, adults, children and pets prompts of the add/edit flows,
with their mandatory flag and current values (`true` and blanks on add,
`false` and the stored values on edit). -/
def promptsHousehold (mand : Bool) (ca cd cc cp : SqlVal) (inp : Inputs) :
    Option (SqlVal × SqlVal × SqlVal × SqlVal) := do
  let address ← edit_prompt_and_validation VKind.str PKind.address mand ca inp.address
  let adults ← edit_prompt_and_validation VKind.int PKind.other mand cd inp.adults
  let children ← edit_prompt_and_validation VKind.int PKind.other mand cc inp.children
  let pets ← edit_prompt_and_validation VKind.bool PKind.other mand cp inp.pets
  some (address, adults, children, pets)

/-- The dogs, critical-meds and refrigerated-meds prompts: dogs follows the
just-collected pets value, refrigerated follows the just-collected
critical-meds value. -/
def promptsConditional (mand : Bool) (cdog ccrit cmed pets : SqlVal) (inp : Inputs) :
    Option (SqlVal × SqlVal × SqlVal) := do
  let dogs ← conditionalPrompt pets cdog inp.dogs
  let criticalMeds ← edit_prompt_and_validation VKind.bool PKind.other mand ccrit inp.critical_meds
  let medsRefrig ← conditionalPrompt criticalMeds cmed inp.meds_need_refrigerated
  some (dogs, criticalMeds, medsRefrig)

/-- The special-needs, propane and natural-gas prompts. -/
def promptsUtilities (mand : Bool) (cs cpr cg : SqlVal) (inp : Inputs) :
    Option (SqlVal × SqlVal × SqlVal) := do
  let specialNeeds ← edit_prompt_and_validation VKind.bool PKind.other mand cs inp.has_special_needs
  let propane ← edit_prompt_and_validation VKind.bool PKind.other mand cpr inp.has_propane_tank
  let naturalGas ← edit_prompt_and_validation VKind.bool PKind.other mand cg inp.has_natural_gas
  some (specialNeeds, propane, naturalGas)

/-- The phone and email prompts (never mandatory). -/
def promptsContact (cph cem : SqlVal) (inp : Inputs) : Option (SqlVal × SqlVal) := do
  let phoneV ← edit_prompt_and_validation VKind.str PKind.phone false cph inp.phone
  let emailV ← edit_prompt_and_validation VKind.str PKind.email false cem inp.email
  some (phoneV, emailV)

/-- The five optional boolean prompts at the end of both flows. -/
def promptsOptional (c1 c2 c3 c4 c5 : SqlVal) (inp : Inputs) :
    Option (SqlVal × SqlVal × SqlVal × SqlVal × SqlVal) := do
  let medTraining ← edit_prompt_and_validation VKind.bool PKind.other false c1 inp.has_medical_training
  let knowNb ← edit_prompt_and_validation VKind.bool PKind.other false c2 inp.know_neighbors
  let nbKey ← edit_prompt_and_validation VKind.bool PKind.other false c3 inp.has_neighbors_key
  let newsletter ← edit_prompt_and_validation VKind.bool PKind.other false c4 inp.wants_newsletter
  let certContact ← edit_prompt_and_validation VKind.bool PKind.other false c5 inp.can_cert_contact
  some (medTraining, knowNb, nbKey, newsletter, certContact)

/-- The record assembled by `add_record` before its INSERT: every prompt
uses the empty string as its current value, the trigger questions are
mandatory, the dependent questions go through `conditionalPrompt`, and
both timestamps are stamped `now`.  `none` means some prompt never
accepted its input. -/
def assembleAdd (inp : Inputs) (now : Nat) : Option DbRecord := do
  let b := SqlVal.text ""
  let t1 ← promptsHousehold true b b b b inp
  let t2 ← promptsConditional true b b b t1.2.2.2 inp
  let t3 ← promptsUtilities true b b b inp
  let t4 ← promptsContact b b inp
  let t5 ← promptsOptional b b b b b inp
  some { address := t1.1, adults := t1.2.1, children := t1.2.2.1,
         pets := t1.2.2.2, dogs := t2.1, critical_meds := t2.2.1,
         meds_need_refrigerated := t2.2.2, has_special_needs := t3.1,
         has_propane_tank := t3.2.1, has_natural_gas := t3.2.2,
         phone := t4.1, email := t4.2, has_medical_training := t5.1,
         know_neighbors := t5.2.1, has_neighbors_key := t5.2.2.1,
         wants_newsletter := t5.2.2.2.1, can_cert_contact := t5.2.2.2.2,
         created_at := now, updated_at := now }

/-- The record assembled by `edit_record` before its UPDATE: every prompt
shows the stored value and keeps it on blank input (no field is mandatory
on this path), the dependent questions follow their just-collected
trigger, `updated_at` is re-stamped, and `created_at` is not among the
updated columns, so it keeps its stored value. -/
def assembleEdit (old : DbRecord) (inp : Inputs) (now : Nat) : Option DbRecord := do
  let t1 ← promptsHousehold false old.address old.adults old.children old.pets inp
  let t2 ← promptsConditional false old.dogs old.critical_meds
    old.meds_need_refrigerated t1.2.2.2 inp
  let t3 ← promptsUtilities false old.has_special_needs old.has_propane_tank
    old.has_natural_gas inp
  let t4 ← promptsContact old.phone old.email inp
  let t5 ← promptsOptional old.has_medical_training old.know_neighbors
    old.has_neighbors_key old.wants_newsletter old.can_cert_contact inp
  some { address := t1.1, adults := t1.2.1, children := t1.2.2.1,
         pets := t1.2.2.2, dogs := t2.1, critical_meds := t2.2.1,
         meds_need_refrigerated := t2.2.2, has_special_needs := t3.1,
         has_propane_tank := t3.2.1, has_natural_gas := t3.2.2,
         phone := t4.1, email := t4.2, has_medical_training := t5.1,
         know_neighbors := t5.2.1, has_neighbors_key := t5.2.2.1,
         wants_newsletter := t5.2.2.2.1, can_cert_contact := t5.2.2.2.2,
         created_at := old.created_at, updated_at := now }

/-- The single-record INSERT plus commit of `add_record` (AUTOINCREMENT id,
NOT NULL constraints as in the schema). -/
def dbInsert (db : Db) (r : DbRecord) : Option Db :=
  if notNullOk r then
    some ⟨db.rows ++ [(db.nextId, r)], db.nextId + 1⟩
  else none

/-- `add_record` of the source: assemble the new record from the accepted
prompt inputs and insert it, stamping `created_at = updated_at = now`. -/
def add_record (db : Db) (inp : Inputs) (now : Nat) : Option Db :=
  (assembleAdd inp now).bind (dbInsert db)

/-- The UPDATE of `edit_record`: replace the listed columns of the row with
the given id (the id and anything not listed stay as stored). -/
def dbReplace (db : Db) (rid : Nat) (r : DbRecord) : Db :=
  ⟨db.rows.map (fun p => if p.1 = rid then (p.1, r) else p), db.nextId⟩

/-- `edit_record` of the source: look the record up (an unknown id prints
a message and leaves the table as it is), re-prompt every field, and push
one UPDATE.  `none` models a prompt input that is never accepted, or the
UPDATE violating a NOT NULL constraint. -/
def edit_record (db : Db) (rid : Nat) (inp : Inputs) (now : Nat) : Option Db :=
  match db.rows.lookup rid with
  | none => some db
  | some old =>
    (assembleEdit old inp now).bind (fun r =>
      if notNullOk r then some (dbReplace db rid r) else none)

/-- A fresh database (SQLite AUTOINCREMENT ids start at 1). -/
def emptyDb : Db := ⟨[], 1⟩

/-- A fully valid CSV row: no pets, no critical meds, optional fields
blank. -/
def goodRow : Row where
  address := some "123 Main St, Springfield, CA 90210"
  adults := some "2"
  children := some "0"
  pets := some "no"
  dogs := none
  critical_meds := some "no"
  meds_need_refrigerated := none
  has_special_needs := some "no"
  has_propane_tank := some "no"
  has_natural_gas := some "yes"
  phone := none
  email := none
  has_medical_training := none
  know_neighbors := none
  has_neighbors_key := none
  wants_newsletter := none
  can_cert_contact := none

/-- A one-row file built from a given row, with all required columns. -/
def oneRowFrame (r : Row) : Frame := ⟨CSV_COLUMNS, [r]⟩

/-- The raw input lines of one fully valid interactive add: pets answered
yes with the dogs question left blank, everything optional left blank. -/
def goodInputs : Inputs where
  address := "9 Oak Ave, Riverton, WA 98001"
  adults := "2"
  children := "1"
  pets := "yes"
  dogs := ""
  critical_meds := "no"
  meds_need_refrigerated := ""
  has_special_needs := "no"
  has_propane_tank := "no"
  has_natural_gas := "yes"
  phone := ""
  email := ""
  has_medical_training := ""
  know_neighbors := ""
  has_neighbors_key := ""
  wants_newsletter := ""
  can_cert_contact := ""

/-- An edit session whose every input line is blank (keep all stored
values). -/
def blankInputs : Inputs where
  address := ""
  adults := ""
  children := ""
  pets := ""
  dogs := ""
  critical_meds := ""
  meds_need_refrigerated := ""
  has_special_needs := ""
  has_propane_tank := ""
  has_natural_gas := ""
  phone := ""
  email := ""
  has_medical_training := ""
  know_neighbors := ""
  has_neighbors_key := ""
  wants_newsletter := ""
  can_cert_contact := ""

/-- A valid stored record, as imported from `goodRow` at time 5. -/
def seedRecord : DbRecord := buildRecord goodRow 5

/-- A database holding `seedRecord` under id 1. -/
def seedDb : Db := ⟨[(1, seedRecord)], 2⟩

/-- The address grammar as the specification words it (its refinement
counterpart, written from the spec text, to be compared with
`validate_address`): a numeric house number, whitespace, a street of
arbitrary non-newline characters followed by a comma, optional
whitespace, a city of letters/spaces/periods followed by a comma,
optional whitespace, exactly two uppercase letters, whitespace, and
exactly five digits, in that literal order. -/
def addressGrammarSpec (s : String) : Prop :=
  ∃ num gap1 street gap2 city gap3 stateU gap4 zipD : List Char,
    s.data = num ++ gap1 ++ street ++ [','] ++ gap2 ++ city ++ [','] ++
      gap3 ++ stateU ++ gap4 ++ zipD ∧
    num ≠ [] ∧ (∀ c ∈ num, Char.isDigit c = true) ∧
    gap1 ≠ [] ∧ (∀ c ∈ gap1, isPyWhitespace c = true) ∧
    street ≠ [] ∧ (∀ c ∈ street, c ≠ '\n') ∧
    (∀ c ∈ gap2, isPyWhitespace c = true) ∧
    city ≠ [] ∧ (∀ c ∈ city, Char.isAlpha c = true ∨ c = ' ' ∨ c = '.') ∧
    (∀ c ∈ gap3, isPyWhitespace c = true) ∧
    stateU.length = 2 ∧ (∀ c ∈ stateU, Char.isUpper c = true) ∧
    gap4 ≠ [] ∧ (∀ c ∈ gap4, isPyWhitespace c = true) ∧
    zipD.length = 5 ∧ (∀ c ∈ zipD, Char.isDigit c = true)

/-- The conditional-field invariants of the spec: `pets = false ⇒ dogs`
NULL and `critical_meds = false ⇒ meds_need_refrigerated` NULL (false is
stored as 0). -/
def CondInv (r : DbRecord) : Prop :=
  (r.pets = SqlVal.num 0 → r.dogs = SqlVal.null) ∧
  (r.critical_meds = SqlVal.num 0 → r.meds_need_refrigerated = SqlVal.null)

theorem takeWhile_pred_of_le {p : Char → Bool} :
    ∀ (l : List Char) (n : Nat), n ≤ (l.takeWhile p).length →
      ∀ c ∈ l.take n, p c = true := by
  intro l
  induction l with
  | nil =>
    intro n _ c hc
    simp at hc
  | cons a t ih =>
    intro n hn c hc
    cases n with
    | zero => simp at hc
    | succ k =>
      by_cases hp : p a
      · rw [List.takeWhile_cons_of_pos hp] at hn
        simp only [List.length_cons, Nat.succ_le_succ_iff] at hn
        simp only [List.take_succ_cons, List.mem_cons] at hc
        rcases hc with hc | hc
        · exact hc ▸ hp
        · exact ih k hn c hc
      · rw [List.takeWhile_cons_of_neg hp] at hn
        simp at hn

theorem le_length_takeWhile {p : Char → Bool} :
    ∀ (u v : List Char), (∀ c ∈ u, p c = true) →
      u.length ≤ ((u ++ v).takeWhile p).length := by
  intro u
  induction u with
  | nil => simp
  | cons a t ih =>
    intro v h
    have hpa : p a = true := h a (by simp)
    simp only [List.cons_append, List.takeWhile_cons_of_pos hpa,
      List.length_cons]
    exact Nat.succ_le_succ (ih v (fun c hc => h c (List.mem_cons_of_mem a hc)))

theorem takeWhile_length_le_len {p : Char → Bool} :
    ∀ (l : List Char), (l.takeWhile p).length ≤ l.length := by
  intro l
  induction l with
  | nil => simp
  | cons a t ih =>
    by_cases hp : p a
    · simp only [List.takeWhile_cons_of_pos hp, List.length_cons]
      exact Nat.succ_le_succ ih
    · simp [List.takeWhile_cons_of_neg hp]

/-- The executable matcher recognizes exactly the declarative language. -/
theorem matchPieces_iff :
    ∀ (ps : List Piece) (s : List Char),
      matchPieces ps s = true ↔ PiecesMatch ps s := by
  intro ps
  induction ps with
  | nil =>
    intro s
    simp [matchPieces, PiecesMatch, List.isEmpty_iff]
  | cons pc ps ih =>
    intro s
    constructor
    · intro h
      simp only [matchPieces, List.any_eq_true, List.mem_range] at h
      obtain ⟨n, hn, hcond⟩ := h
      rw [Bool.and_eq_true, decide_eq_true_eq] at hcond
      obtain ⟨hlo, hrec⟩ := hcond
      have hn' : n ≤ pieceUpper pc s := Nat.lt_succ_iff.mp hn
      have hnm : n ≤ (s.takeWhile pc.cls).length := by
        cases hh : pc.hi with
        | none => simpa [pieceUpper, hh] using hn'
        | some k =>
          have h2 := hn'
          simp only [pieceUpper, hh, Nat.le_min] at h2
          exact h2.2
      have hlen : (s.take n).length = n := by
        rw [List.length_take]
        exact Nat.min_eq_left (le_trans hnm (takeWhile_length_le_len s))
      refine ⟨s.take n, s.drop n, (List.take_append_drop n s).symm, ?_, (ih _).mp hrec⟩
      refine ⟨takeWhile_pred_of_le s n hnm, ?_, ?_⟩
      · rw [hlen]; exact hlo
      · intro k hk
        rw [hlen]
        have h2 := hn'
        simp only [pieceUpper, hk, Nat.le_min] at h2
        exact h2.1
    · rintro ⟨u, v, rfl, ⟨hcls, hlo, hhi⟩, hm⟩
      simp only [matchPieces, List.any_eq_true, List.mem_range]
      refine ⟨u.length, ?_, ?_⟩
      · have h1 : u.length ≤ ((u ++ v).takeWhile pc.cls).length :=
          le_length_takeWhile u v hcls
        cases hh : pc.hi with
        | none =>
          simp only [pieceUpper, hh]
          exact Nat.lt_succ_of_le h1
        | some k =>
          simp only [pieceUpper, hh]
          exact Nat.lt_succ_of_le (le_min (hhi k hh) h1)
      · rw [Bool.and_eq_true, decide_eq_true_eq]
        refine ⟨hlo, ?_⟩
        rw [List.drop_left]
        exact (ih v).mpr hm

example : validate_address "123 Main St, Springfield, CA 90210" = true := by decide
example : validate_address "123 Main St, Springfield, CALI 90210" = false := by decide
example : validate_phone (some "(123) 456-7890") = true := by decide
example : validate_phone (some "123-456-789") = false := by decide
example : validate_email (some "a.b@test.org") = true := by decide
example : validate_email (some "a.b@testorg") = false := by decide

example : (import_csv emptyDb (oneRowFrame goodRow) 7).1 = ImportOutcome.ok := by decide
example :
    (import_csv emptyDb (oneRowFrame { goodRow with pets := some "yes", dogs := none }) 7).1 =
      ImportOutcome.ok := by decide
example :
    (import_csv emptyDb (oneRowFrame { goodRow with pets := none }) 7).1 =
      ImportOutcome.integrityErrorCrash := by decide
example :
    (import_csv emptyDb (oneRowFrame { goodRow with pets := some "no", dogs := some "yes" }) 7).1 =
      ImportOutcome.abortedDogsWithoutPets [(0, SqlVal.num 0, SqlVal.num 1)] := by decide
example :
    (import_csv emptyDb (oneRowFrame { goodRow with adults := some "-3" }) 7).1 =
      ImportOutcome.ok := by decide

theorem mem_withIdx_snd {α : Type} :
    ∀ (n : Nat) (l : List α) (p : Nat × α), p ∈ withIdx n l → p.2 ∈ l := by
  intro n l
  induction l generalizing n with
  | nil => intro p hp; simp [withIdx] at hp
  | cons a t ih =>
    intro p hp
    simp only [withIdx, List.mem_cons] at hp
    rcases hp with hp | hp
    · subst hp; simp
    · exact List.mem_cons_of_mem a (ih (n + 1) p hp)

/-- Inversion of a failed import: any outcome other than `ok` leaves the
database untouched. -/
theorem import_csv_not_ok (db : Db) (f : Frame) (now : Nat)
    (o : ImportOutcome) (db2 : Db) (h : import_csv db f now = (o, db2))
    (ho : o ≠ ImportOutcome.ok) : db2 = db := by
  unfold import_csv at h
  split_ifs at h <;>
    first
      | (injection h with h1 h2; exact h2.symm)
      | (revert h
         cases hins : dbInsertMany db (f.rows.map (fun r => buildRecord r now)) with
         | some db3 =>
           intro h
           injection h with h1 h2
           exact absurd h1.symm ho
         | none =>
           intro h
           injection h with h1 h2
           exact h2.symm)

/-- Inversion of a successful import: every stage passed, and the new
database is the old rows plus one freshly stamped record per input row. -/
theorem import_csv_ok (db : Db) (f : Frame) (now : Nat) (db2 : Db)
    (h : import_csv db f now = (ImportOutcome.ok, db2)) :
    missing_columns f = [] ∧
    anyNaAddress f = false ∧
    (∀ r ∈ f.rows, validate_address (r.address.getD "") = true) ∧
    (∀ r ∈ f.rows, validate_phone r.phone = true) ∧
    (∀ r ∈ f.rows, validate_email r.email = true) ∧
    (∀ r ∈ f.rows, (toNumeric r.adults).isSome = true ∧
      (toNumeric r.children).isSome = true) ∧
    (∀ r ∈ f.rows, dogsViolation r = false) ∧
    (∀ r ∈ f.rows, medsViolation r = false) ∧
    (∀ q ∈ f.rows.map (fun r => buildRecord r now), notNullOk q = true) ∧
    db2 = ⟨db.rows ++ withIdx db.nextId (f.rows.map (fun r => buildRecord r now)),
           db.nextId + (f.rows.map (fun r => buildRecord r now)).length⟩ := by
  unfold import_csv at h
  split_ifs at h with h1 h2 h3 h4 h5 h6 h7 h8
  · exact absurd (congrArg Prod.fst h) (by simp)
  · exact absurd (congrArg Prod.fst h) (by simp)
  · exact absurd (congrArg Prod.fst h) (by simp)
  · exact absurd (congrArg Prod.fst h) (by simp)
  · exact absurd (congrArg Prod.fst h) (by simp)
  · exact absurd (congrArg Prod.fst h) (by simp)
  · exact absurd (congrArg Prod.fst h) (by simp)
  · exact absurd (congrArg Prod.fst h) (by simp)
  · revert h
    cases hins : dbInsertMany db (f.rows.map (fun r => buildRecord r now)) with
    | none => intro h; exact absurd (congrArg Prod.fst h) (by simp)
    | some db3 =>
      intro h
      injection h with hfst hsnd
      unfold dbInsertMany at hins
      split_ifs at hins with hall
      · injection hins with hins
        refine ⟨not_ne_iff.mp h1, Bool.of_not_eq_true h2, ?_, ?_, ?_, ?_, ?_, ?_, ?_, ?_⟩
        · intro r hr
          by_contra hv
          exact h3 (List.any_eq_true.mpr ⟨r, hr, by simp [Bool.of_not_eq_true hv]⟩)
        · intro r hr
          by_contra hv
          exact h4 (List.any_eq_true.mpr ⟨r, hr, by simp [Bool.of_not_eq_true hv]⟩)
        · intro r hr
          by_contra hv
          exact h5 (List.any_eq_true.mpr ⟨r, hr, by simp [Bool.of_not_eq_true hv]⟩)
        · intro r hr
          constructor
          · by_contra hv
            refine h6 (List.any_eq_true.mpr ⟨r, hr, ?_⟩)
            simp only [Bool.or_eq_true, Option.isNone_iff_eq_none]
            exact Or.inl (Option.not_isSome_iff_eq_none.mp hv)
          · by_contra hv
            refine h6 (List.any_eq_true.mpr ⟨r, hr, ?_⟩)
            simp only [Bool.or_eq_true, Option.isNone_iff_eq_none]
            exact Or.inr (Option.not_isSome_iff_eq_none.mp hv)
        · intro r hr
          by_contra hv
          exact h7 (List.any_eq_true.mpr ⟨r, hr, Bool.of_not_eq_false hv⟩)
        · intro r hr
          by_contra hv
          exact h8 (List.any_eq_true.mpr ⟨r, hr, Bool.of_not_eq_false hv⟩)
        · exact fun q hq => List.all_eq_true.mp hall q hq
        · rw [← hsnd, ← hins]

theorem bind_some_inv {a b : Type} {x : Option a} {f : a → Option b} {v : b}
    (h : x.bind f = some v) : ∃ u, x = some u ∧ f u = some v := by
  cases x with
  | none => exact absurd h (by simp)
  | some u => exact ⟨u, rfl, h⟩

/-- The conditional-prompt group forces a dependent field to NULL whenever
its trigger value is not 1. -/
theorem promptsConditional_inv (mand : Bool) (cdog ccrit cmed pets : SqlVal)
    (inp : Inputs) (t : SqlVal × SqlVal × SqlVal)
    (h : promptsConditional mand cdog ccrit cmed pets inp = some t) :
    (pets ≠ SqlVal.num 1 → t.1 = SqlVal.null) ∧
    (t.2.1 ≠ SqlVal.num 1 → t.2.2 = SqlVal.null) := by
  unfold promptsConditional at h
  obtain ⟨dogs, hd, h⟩ := bind_some_inv h
  obtain ⟨cri, hc, h⟩ := bind_some_inv h
  obtain ⟨med, hm, h⟩ := bind_some_inv h
  have h2 : some (dogs, cri, med) = some t := h
  injection h2 with h2
  subst h2
  constructor
  · intro hne
    show dogs = SqlVal.null
    unfold conditionalPrompt at hd
    rw [if_neg hne] at hd
    injection hd with hd
    exact hd.symm
  · intro hne
    show med = SqlVal.null
    unfold conditionalPrompt at hm
    rw [if_neg hne] at hm
    injection hm with hm
    exact hm.symm

theorem assembleAdd_condInv (inp : Inputs) (now : Nat) (r : DbRecord)
    (h : assembleAdd inp now = some r) : CondInv r := by
  unfold assembleAdd at h
  obtain ⟨t1, h1, h⟩ := bind_some_inv h
  obtain ⟨t2, h2, h⟩ := bind_some_inv h
  obtain ⟨t3, h3, h⟩ := bind_some_inv h
  obtain ⟨t4, h4, h⟩ := bind_some_inv h
  obtain ⟨t5, h5, h⟩ := bind_some_inv h
  injection h with h
  subst h
  have hpc := promptsConditional_inv _ _ _ _ _ _ _ h2
  constructor
  · intro hp
    have hp2 : t1.2.2.2 = SqlVal.num 0 := hp
    show t2.1 = SqlVal.null
    exact hpc.1 (by rw [hp2]; decide)
  · intro hp
    have hp2 : t2.2.1 = SqlVal.num 0 := hp
    show t2.2.2 = SqlVal.null
    exact hpc.2 (by rw [hp2]; decide)

theorem assembleEdit_condInv (old : DbRecord) (inp : Inputs) (now : Nat)
    (r : DbRecord) (h : assembleEdit old inp now = some r) : CondInv r := by
  unfold assembleEdit at h
  obtain ⟨t1, h1, h⟩ := bind_some_inv h
  obtain ⟨t2, h2, h⟩ := bind_some_inv h
  obtain ⟨t3, h3, h⟩ := bind_some_inv h
  obtain ⟨t4, h4, h⟩ := bind_some_inv h
  obtain ⟨t5, h5, h⟩ := bind_some_inv h
  injection h with h
  subst h
  have hpc := promptsConditional_inv _ _ _ _ _ _ _ h2
  constructor
  · intro hp
    have hp2 : t1.2.2.2 = SqlVal.num 0 := hp
    show t2.1 = SqlVal.null
    exact hpc.1 (by rw [hp2]; decide)
  · intro hp
    have hp2 : t2.2.1 = SqlVal.num 0 := hp
    show t2.2.2 = SqlVal.null
    exact hpc.2 (by rw [hp2]; decide)

/-- A converted import row that passed both conditional checks satisfies
the invariants. -/
theorem condInv_buildRecord (r : Row) (now : Nat)
    (hd : dogsViolation r = false) (hm : medsViolation r = false) :
    CondInv (buildRecord r now) := by
  simp only [dogsViolation, Bool.and_eq_false_iff, decide_eq_false_iff_not,
    not_not] at hd
  simp only [medsViolation, Bool.and_eq_false_iff, decide_eq_false_iff_not,
    not_not] at hm
  constructor
  · intro hp
    rcases hd with hd | hd
    · exact absurd hp hd
    · exact hd
  · intro hp
    rcases hm with hm | hm
    · exact absurd hp hm
    · exact hm

/-- Inversion of a successful single-record INSERT. -/
theorem dbInsert_inv (db : Db) (r : DbRecord) (db2 : Db)
    (h : dbInsert db r = some db2) :
    notNullOk r = true ∧ db2 = ⟨db.rows ++ [(db.nextId, r)], db.nextId + 1⟩ := by
  unfold dbInsert at h
  split_ifs at h with hok
  injection h with h
  exact ⟨hok, h.symm⟩

/-- C1: for every stored record, after every create (batch import row
insert or interactive add) and after every update (interactive edit), the
conditional invariants hold: `pets = false` implies `dogs` is null, and
`critical_meds = false` implies `meds_need_refrigerated` is null. -/
theorem c1_conditional_invariants (db : Db)
    (hdb : ∀ p ∈ db.rows, CondInv p.2) :
    (∀ f now o db2, import_csv db f now = (o, db2) →
      ∀ p ∈ db2.rows, CondInv p.2) ∧
    (∀ inp now db2, add_record db inp now = some db2 →
      ∀ p ∈ db2.rows, CondInv p.2) ∧
    (∀ rid inp now db2, edit_record db rid inp now = some db2 →
      ∀ p ∈ db2.rows, CondInv p.2) := by
  refine ⟨?_, ?_, ?_⟩
  · intro f now o db2 h p hp
    by_cases ho : o = ImportOutcome.ok
    · subst ho
      obtain ⟨-, -, -, -, -, -, hdogs, hmeds, -, hdb2⟩ :=
        import_csv_ok db f now db2 h
      subst hdb2
      rcases List.mem_append.mp hp with hmem | hmem
      · exact hdb p hmem
      · have hsnd := mem_withIdx_snd _ _ p hmem
        obtain ⟨row, hrow, heq⟩ := List.mem_map.mp hsnd
        rw [← heq]
        exact condInv_buildRecord row now (hdogs row hrow) (hmeds row hrow)
    · rw [import_csv_not_ok db f now o db2 h ho] at hp
      exact hdb p hp
  · intro inp now db2 h p hp
    unfold add_record at h
    obtain ⟨r, hr, hins⟩ := bind_some_inv h
    obtain ⟨hok, hdb2⟩ := dbInsert_inv db r db2 hins
    subst hdb2
    rcases List.mem_append.mp hp with hmem | hmem
    · exact hdb p hmem
    · rw [List.mem_singleton] at hmem
      subst hmem
      exact assembleAdd_condInv inp now r hr
  · intro rid inp now db2 h p hp
    unfold edit_record at h
    cases hlk : db.rows.lookup rid with
    | none =>
      rw [hlk] at h
      injection h with h
      subst h
      exact hdb p hp
    | some old =>
      rw [hlk] at h
      obtain ⟨r, hr, hif⟩ := bind_some_inv h
      split_ifs at hif with hok
      injection hif with hif
      subst hif
      obtain ⟨q, hq, hqe⟩ := List.mem_map.mp hp
      by_cases hqr : q.1 = rid
      · rw [if_pos hqr] at hqe
        rw [← hqe]
        exact assembleEdit_condInv old inp now r hr
      · rw [if_neg hqr] at hqe
        rw [← hqe]
        exact hdb q hq

theorem c1_conditional_invariants_witness : CondInv (buildRecord goodRow 7) :=
  (c1_conditional_invariants emptyDb (by simp [emptyDb])).1 (oneRowFrame goodRow) 7
    ImportOutcome.ok (import_csv emptyDb (oneRowFrame goodRow) 7).2 (by decide)
    (1, buildRecord goodRow 7) (by decide)

theorem withIdx_length {α : Type} :
    ∀ (n : Nat) (l : List α), (withIdx n l).length = l.length := by
  intro n l
  induction l generalizing n with
  | nil => rfl
  | cons a t ih => simp [withIdx, ih]

theorem withIdx_map_snd {α : Type} :
    ∀ (n : Nat) (l : List α), (withIdx n l).map Prod.snd = l := by
  intro n l
  induction l generalizing n with
  | nil => rfl
  | cons a t ih => simp [withIdx, ih]

/-- C4: batch import is all-or-nothing: any outcome other than `ok` leaves
the stored rows untouched (count unchanged); on `ok`, every row passed
every validation stage (address, phone, email, integer coercion,
conditional checks, column presence) and all rows are appended, every one
stamped with the same `now` as both `created_at` and `updated_at`. -/
theorem c4_batch_atomicity (db : Db) (f : Frame) (now : Nat)
    (o : ImportOutcome) (db2 : Db) (h : import_csv db f now = (o, db2)) :
    (o ≠ ImportOutcome.ok →
      db2 = db ∧ db2.rows.length = db.rows.length) ∧
    (o = ImportOutcome.ok →
      missing_columns f = [] ∧
      (∀ r ∈ f.rows, validate_address (r.address.getD "") = true ∧
        validate_phone r.phone = true ∧ validate_email r.email = true ∧
        (toNumeric r.adults).isSome = true ∧
        (toNumeric r.children).isSome = true ∧
        dogsViolation r = false ∧ medsViolation r = false) ∧
      db2.rows = db.rows ++
        withIdx db.nextId (f.rows.map (fun r => buildRecord r now)) ∧
      db2.rows.length = db.rows.length + f.rows.length ∧
      (∀ q ∈ f.rows.map (fun r => buildRecord r now),
        q.created_at = now ∧ q.updated_at = now)) := by
  constructor
  · intro ho
    have hdb := import_csv_not_ok db f now o db2 h ho
    exact ⟨hdb, by rw [hdb]⟩
  · intro ho
    subst ho
    obtain ⟨hcols, -, haddr, hphone, hemail, hints, hdogs, hmeds, -, hdb2⟩ :=
      import_csv_ok db f now db2 h
    subst hdb2
    refine ⟨hcols, ?_, rfl, ?_, ?_⟩
    · intro r hr
      exact ⟨haddr r hr, hphone r hr, hemail r hr, (hints r hr).1,
        (hints r hr).2, hdogs r hr, hmeds r hr⟩
    · show (db.rows ++ _).length = _
      rw [List.length_append, withIdx_length, List.length_map]
    · intro q hq
      obtain ⟨r, hr, heq⟩ := List.mem_map.mp hq
      subst heq
      exact ⟨rfl, rfl⟩

theorem c4_batch_atomicity_witness :
    (import_csv emptyDb (oneRowFrame goodRow) 7).2.rows =
      emptyDb.rows ++ withIdx emptyDb.nextId
        ((oneRowFrame goodRow).rows.map (fun r => buildRecord r 7)) :=
  ((c4_batch_atomicity emptyDb (oneRowFrame goodRow) 7 ImportOutcome.ok
      (import_csv emptyDb (oneRowFrame goodRow) 7).2 (by decide)).2 rfl).2.2.1

/-- C8: importing a file containing a row with `pets=no` and `dogs=yes`
aborts the import with zero records persisted and reports the offending
row and its converted pets/dogs field pair. -/
theorem c8_dogs_without_pets_scenario :
    import_csv emptyDb
        (oneRowFrame { goodRow with pets := some "no", dogs := some "yes" }) 7 =
      (ImportOutcome.abortedDogsWithoutPets [(0, SqlVal.num 0, SqlVal.num 1)],
       emptyDb) := by decide

/-- C2 counterexample: the unrecognized boolean token `maybe` is not a
format error — `boolean_converter` maps it to NULL (pandas `map` sends
missing dict keys to NaN), and a whole import carrying it succeeds and
stores NULL for that field. -/
theorem c2_counterexample :
    boolean_converter (some "maybe") = SqlVal.null ∧
    (import_csv emptyDb
        (oneRowFrame { goodRow with has_medical_training := some "maybe" }) 7).1 =
      ImportOutcome.ok ∧
    (import_csv emptyDb
        (oneRowFrame { goodRow with has_medical_training := some "maybe" }) 7).2.rows.map
        (fun p => p.2.has_medical_training) = [SqlVal.null] := by
  refine ⟨by decide, by decide, by decide⟩

/-- C2 (amended): boolean-token normalization maps case-insensitive,
whitespace-trimmed tokens yes/y/true/1 to 1, no/n/false/0 to 0, the empty
string and `nan` to NULL — and every other token also to NULL (pandas
`Series.map` yields NaN for keys missing from the dict), not to an
error. -/
theorem c2_boolean_normalization (c : Cell) (t : String)
    (ht : t = pyLower (pyStrip (pythonStr c))) :
    ((t = "yes" ∨ t = "y" ∨ t = "true" ∨ t = "1") →
      boolean_converter c = SqlVal.num 1) ∧
    ((t = "no" ∨ t = "n" ∨ t = "false" ∨ t = "0") →
      boolean_converter c = SqlVal.num 0) ∧
    ((t = "" ∨ t = "nan") → boolean_converter c = SqlVal.null) ∧
    (¬(t = "yes" ∨ t = "y" ∨ t = "true" ∨ t = "1") →
      ¬(t = "no" ∨ t = "n" ∨ t = "false" ∨ t = "0") →
      ¬(t = "" ∨ t = "nan") →
      boolean_converter c = SqlVal.null) := by
  have hbc : boolean_converter c = (booleanTokenDict t).getD SqlVal.null := by
    rw [boolean_converter, ht]
  refine ⟨?_, ?_, ?_, ?_⟩
  · intro h
    rcases h with h | h | h | h <;> subst h <;> rw [hbc] <;> decide
  · intro h
    rcases h with h | h | h | h <;> subst h <;> rw [hbc] <;> decide
  · intro h
    rcases h with h | h <;> subst h <;> rw [hbc] <;> decide
  · intro h1 h2 h3
    rw [hbc, booleanTokenDict, if_neg h1, if_neg h2, if_neg h3]
    rfl

theorem c2_boolean_normalization_witness :
    boolean_converter (some " YES ") = SqlVal.num 1 ∧
    boolean_converter (some "0") = SqlVal.num 0 ∧
    boolean_converter none = SqlVal.null ∧
    boolean_converter (some "maybe ") = SqlVal.null :=
  ⟨(c2_boolean_normalization (some " YES ") "yes" (by decide)).1
      (Or.inl rfl),
   (c2_boolean_normalization (some "0") "0" (by decide)).2.1
      (Or.inr (Or.inr (Or.inr rfl))),
   (c2_boolean_normalization none "nan" (by decide)).2.2.1
      (Or.inr rfl),
   (c2_boolean_normalization (some "maybe ") "maybe" (by decide)).2.2.2
      (by decide) (by decide) (by decide)⟩

/-- C3 counterexample: a batch row with trigger true and dependent null
(`pets=yes`, `dogs` blank) is NOT a validation failure — the import
succeeds and persists the row with `pets = 1` and `dogs` NULL. -/
theorem c3_counterexample :
    (import_csv emptyDb
        (oneRowFrame { goodRow with pets := some "yes", dogs := none }) 7).1 =
      ImportOutcome.ok ∧
    (import_csv emptyDb
        (oneRowFrame { goodRow with pets := some "yes", dogs := none }) 7).2.rows.map
        (fun p => (p.2.pets, p.2.dogs)) = [(SqlVal.num 1, SqlVal.null)] := by
  refine ⟨by decide, by decide⟩

/-- C3 (amended): the batch path checks only the must-be-null direction:
a successful import guarantees no row had a non-null dependent with a
false trigger, while every row — including one whose trigger is true and
dependent null — is persisted. -/
theorem c3_batch_conditional_checks (db : Db) (f : Frame) (now : Nat)
    (db2 : Db) (h : import_csv db f now = (ImportOutcome.ok, db2)) :
    (∀ r ∈ f.rows,
      ¬(boolean_converter r.pets = SqlVal.num 0 ∧
        boolean_converter r.dogs ≠ SqlVal.null) ∧
      ¬(boolean_converter r.critical_meds = SqlVal.num 0 ∧
        boolean_converter r.meds_need_refrigerated ≠ SqlVal.null)) ∧
    (∀ r ∈ f.rows, buildRecord r now ∈ db2.rows.map Prod.snd) := by
  obtain ⟨-, -, -, -, -, -, hdogs, hmeds, -, hdb2⟩ :=
    import_csv_ok db f now db2 h
  constructor
  · intro r hr
    constructor
    · have hd := hdogs r hr
      simp only [dogsViolation, Bool.and_eq_false_iff,
        decide_eq_false_iff_not, not_not] at hd
      rw [not_and_or]
      rcases hd with hd | hd
      · exact Or.inl hd
      · exact Or.inr (by rw [not_not]; exact hd)
    · have hm := hmeds r hr
      simp only [medsViolation, Bool.and_eq_false_iff,
        decide_eq_false_iff_not, not_not] at hm
      rw [not_and_or]
      rcases hm with hm | hm
      · exact Or.inl hm
      · exact Or.inr (by rw [not_not]; exact hm)
  · intro r hr
    subst hdb2
    show buildRecord r now ∈ (db.rows ++ _).map Prod.snd
    rw [List.map_append, withIdx_map_snd]
    exact List.mem_append_right _ (List.mem_map_of_mem _ hr)

theorem c3_batch_conditional_checks_witness :
    buildRecord { goodRow with pets := some "yes", dogs := none } 7 ∈
      (import_csv emptyDb
        (oneRowFrame { goodRow with pets := some "yes", dogs := none }) 7).2.rows.map
        Prod.snd :=
  (c3_batch_conditional_checks emptyDb
      (oneRowFrame { goodRow with pets := some "yes", dogs := none }) 7
      (import_csv emptyDb
        (oneRowFrame { goodRow with pets := some "yes", dogs := none }) 7).2
      (by decide)).2
    { goodRow with pets := some "yes", dogs := none } (by decide)

/-- A mandatory integer prompt only ever returns a non-negative integer
(Python `isdigit` admits plain digit strings only, and blank input is
re-prompted). -/
theorem int_prompt_nat (pk : PKind) (cur : SqlVal) (raw : String) (v : SqlVal)
    (h : edit_prompt_and_validation VKind.int pk true cur raw = some v) :
    ∃ n : ℕ, v = SqlVal.num n := by
  simp only [edit_prompt_and_validation] at h
  split_ifs at h
  all_goals injection h with h
  all_goals exact ⟨_, h.symm⟩

/-- On the mandatory path, the household prompt group returns integer
adults and children values. -/
theorem promptsHousehold_mandatory_ints (ca cd cc cp : SqlVal) (inp : Inputs)
    (t : SqlVal × SqlVal × SqlVal × SqlVal)
    (h : promptsHousehold true ca cd cc cp inp = some t) :
    (∃ n : ℕ, t.2.1 = SqlVal.num n) ∧ (∃ n : ℕ, t.2.2.1 = SqlVal.num n) := by
  unfold promptsHousehold at h
  obtain ⟨a, ha, h⟩ := bind_some_inv h
  obtain ⟨b, hb, h⟩ := bind_some_inv h
  obtain ⟨c, hc, h⟩ := bind_some_inv h
  obtain ⟨d, hd, h⟩ := bind_some_inv h
  injection h with h
  subst h
  exact ⟨int_prompt_nat _ _ _ _ hb, int_prompt_nat _ _ _ _ hc⟩

/-- C5 (amended): on the batch path the adults and children of every
persisted row are numeric values (any decimal `to_numeric` accepts,
negatives included), and non-numeric input aborts the import with the
database unchanged; on the interactive add path they are non-negative
integers. -/
theorem c5_integer_fields (db : Db) :
    (∀ f now db2, import_csv db f now = (ImportOutcome.ok, db2) →
      ∀ r ∈ f.rows,
        (∃ q : ℚ, (buildRecord r now).adults = SqlVal.num q) ∧
        (∃ q : ℚ, (buildRecord r now).children = SqlVal.num q)) ∧
    (∀ f now o db2, import_csv db f now = (o, db2) →
      (∃ r ∈ f.rows, toNumeric r.adults = none ∨ toNumeric r.children = none) →
      o ≠ ImportOutcome.ok ∧ db2 = db) ∧
    (∀ inp now r, assembleAdd inp now = some r →
      (∃ n : ℕ, r.adults = SqlVal.num n) ∧
      (∃ n : ℕ, r.children = SqlVal.num n)) := by
  refine ⟨?_, ?_, ?_⟩
  · intro f now db2 h r hr
    obtain ⟨-, -, -, -, -, hints, -, -, hall, -⟩ :=
      import_csv_ok db f now db2 h
    have hnn := hall (buildRecord r now) (List.mem_map_of_mem _ hr)
    constructor
    · have hA := (hints r hr).1
      cases hra : r.adults with
      | none =>
        exfalso
        have hz : (buildRecord r now).adults = SqlVal.null := by
          show (toNumeric r.adults).getD SqlVal.null = SqlVal.null
          rw [hra]
          rfl
        simp [notNullOk, hz] at hnn
      | some s =>
        rw [hra] at hA
        cases hps : parseDecimal s with
        | none =>
          rw [show toNumeric (some s) = (parseDecimal s).map SqlVal.num from rfl,
            hps] at hA
          simp at hA
        | some q =>
          refine ⟨q, ?_⟩
          show (toNumeric r.adults).getD SqlVal.null = SqlVal.num q
          rw [hra, show toNumeric (some s) = (parseDecimal s).map SqlVal.num from rfl,
            hps]
          rfl
    · have hA := (hints r hr).2
      cases hra : r.children with
      | none =>
        exfalso
        have hz : (buildRecord r now).children = SqlVal.null := by
          show (toNumeric r.children).getD SqlVal.null = SqlVal.null
          rw [hra]
          rfl
        simp [notNullOk, hz] at hnn
      | some s =>
        rw [hra] at hA
        cases hps : parseDecimal s with
        | none =>
          rw [show toNumeric (some s) = (parseDecimal s).map SqlVal.num from rfl,
            hps] at hA
          simp at hA
        | some q =>
          refine ⟨q, ?_⟩
          show (toNumeric r.children).getD SqlVal.null = SqlVal.num q
          rw [hra, show toNumeric (some s) = (parseDecimal s).map SqlVal.num from rfl,
            hps]
          rfl
  · intro f now o db2 h hbad
    obtain ⟨r, hr, hbad⟩ := hbad
    have ho : o ≠ ImportOutcome.ok := by
      intro ho
      subst ho
      obtain ⟨-, -, -, -, -, hints, -, -, -, -⟩ :=
        import_csv_ok db f now db2 h
      rcases hbad with hbad | hbad
      · have := (hints r hr).1
        rw [hbad] at this
        exact absurd this (by simp)
      · have := (hints r hr).2
        rw [hbad] at this
        exact absurd this (by simp)
    exact ⟨ho, import_csv_not_ok db f now o db2 h ho⟩
  · intro inp now r h
    unfold assembleAdd at h
    obtain ⟨t1, h1, h⟩ := bind_some_inv h
    obtain ⟨t2, h2, h⟩ := bind_some_inv h
    obtain ⟨t3, h3, h⟩ := bind_some_inv h
    obtain ⟨t4, h4, h⟩ := bind_some_inv h
    obtain ⟨t5, h5, h⟩ := bind_some_inv h
    injection h with h
    subst h
    have hn := promptsHousehold_mandatory_ints _ _ _ _ _ _ h1
    exact ⟨hn.1, hn.2⟩

/-- C5 counterexample: a batch row with `adults = "-3"` passes the numeric
stage and is persisted with a negative adults value, violating the
non-negativity invariant. -/
theorem c5_counterexample :
    (import_csv emptyDb (oneRowFrame { goodRow with adults := some "-3" }) 7).1 =
      ImportOutcome.ok ∧
    (import_csv emptyDb (oneRowFrame { goodRow with adults := some "-3" }) 7).2.rows.map
        (fun p => p.2.adults) = [SqlVal.num (-3)] := by
  refine ⟨by decide, by decide⟩

theorem c5_integer_fields_witness :
    (∃ n : ℕ, ((assembleAdd goodInputs 7).getD default).adults = SqlVal.num n) ∧
    (∃ n : ℕ, ((assembleAdd goodInputs 7).getD default).children = SqlVal.num n) :=
  (c5_integer_fields emptyDb).2.2 goodInputs 7
    ((assembleAdd goodInputs 7).getD default) (by decide)

theorem pyLower_empty : pyLower "" = "" := rfl

/-- C6 (amended): missing required columns are rejected before any
persistence with the database untouched, and on the interactive path a
blank input on a mandatory field is never accepted (the prompt loops);
but the batch path has no per-row MissingField check — a row with a blank
mandatory field passes every validation stage and reaches the INSERT,
where the NOT NULL constraint raises (see the counterexample). -/
theorem c6_missing_field_handling :
    (∀ db f now, missing_columns f ≠ [] →
      import_csv db f now =
        (ImportOutcome.abortedMissingColumns (missing_columns f), db)) ∧
    (∀ vk pk cur raw, pyStrip raw = "" →
      edit_prompt_and_validation vk pk true cur raw = none) := by
  constructor
  · intro db f now h
    unfold import_csv
    rw [if_pos h]
  · intro vk pk cur raw h
    cases vk <;> simp [edit_prompt_and_validation, h, pyLower_empty]

/-- C6 counterexample: a row whose mandatory `pets` cell is blank is not
rejected by any validation stage; it reaches the INSERT with `pets` NULL
and the import dies on the NOT NULL constraint at the persistence call,
not before it. -/
theorem c6_counterexample :
    import_csv emptyDb (oneRowFrame { goodRow with pets := none }) 7 =
      (ImportOutcome.integrityErrorCrash, emptyDb) := by decide

theorem c6_missing_field_handling_witness :
    import_csv emptyDb ⟨["address"], []⟩ 5 =
      (ImportOutcome.abortedMissingColumns (missing_columns ⟨["address"], []⟩),
       emptyDb) ∧
    edit_prompt_and_validation VKind.bool PKind.other true SqlVal.null "  " =
      none :=
  ⟨(c6_missing_field_handling).1 emptyDb ⟨["address"], []⟩ 5 (by decide),
   (c6_missing_field_handling).2 VKind.bool PKind.other SqlVal.null "  "
     (by decide)⟩

/-- The edit assembly keeps the stored `created_at` (the UPDATE does not
list that column) and stamps `updated_at` with the edit time. -/
theorem assembleEdit_timestamps (old : DbRecord) (inp : Inputs) (now : Nat)
    (r : DbRecord) (h : assembleEdit old inp now = some r) :
    r.created_at = old.created_at ∧ r.updated_at = now := by
  unfold assembleEdit at h
  obtain ⟨t1, h1, h⟩ := bind_some_inv h
  obtain ⟨t2, h2, h⟩ := bind_some_inv h
  obtain ⟨t3, h3, h⟩ := bind_some_inv h
  obtain ⟨t4, h4, h⟩ := bind_some_inv h
  obtain ⟨t5, h5, h⟩ := bind_some_inv h
  injection h with h
  subst h
  exact ⟨rfl, rfl⟩

/-- After the UPDATE, looking the id up returns the replacement record. -/
theorem lookup_replace :
    ∀ (l : List (Nat × DbRecord)) (rid : Nat) (old r : DbRecord),
      l.lookup rid = some old →
      (l.map (fun p => if p.1 = rid then (p.1, r) else p)).lookup rid = some r := by
  intro l
  induction l with
  | nil =>
    intro rid old r h
    simp [List.lookup] at h
  | cons a t ih =>
    intro rid old r h
    obtain ⟨k, v⟩ := a
    cases hbeq : (rid == k) with
    | true =>
      have hkr : k = rid := (Nat.beq_eq_true_eq rid k ▸ hbeq).symm
      simp only [List.map_cons, if_pos hkr]
      simp [List.lookup, hbeq]
    | false =>
      have hkr : ¬ k = rid := by
        intro he
        rw [he] at hbeq
        simp at hbeq
      simp only [List.map_cons, if_neg hkr]
      simp only [List.lookup, hbeq] at h ⊢
      exact ih rid old r h

/-- C7: for an existing id and an assembled valid record, the edit flow
performs the UPDATE; reading the id back returns exactly the assembled
record, whose `created_at` equals the stored one and whose `updated_at`
is the edit time — strictly greater than the prior `updated_at` whenever
the clock advanced. -/
theorem c7_update_semantics (db : Db) (rid : Nat) (old : DbRecord)
    (inp : Inputs) (now : Nat) (r : DbRecord)
    (hlk : db.rows.lookup rid = some old)
    (hr : assembleEdit old inp now = some r)
    (hnn : notNullOk r = true)
    (ht : old.updated_at < now) :
    edit_record db rid inp now = some (dbReplace db rid r) ∧
    (dbReplace db rid r).rows.lookup rid = some r ∧
    r.created_at = old.created_at ∧
    r.updated_at = now ∧
    old.updated_at < r.updated_at := by
  have hts := assembleEdit_timestamps old inp now r hr
  refine ⟨?_, ?_, hts.1, hts.2, by rw [hts.2]; exact ht⟩
  · unfold edit_record
    rw [hlk]
    show (assembleEdit old inp now).bind _ = _
    rw [hr]
    show (if notNullOk r then some (dbReplace db rid r) else none) = _
    rw [if_pos hnn]
  · exact lookup_replace db.rows rid old r hlk

theorem c7_update_semantics_witness :
    ({ seedRecord with updated_at := 9 } : DbRecord).created_at =
      seedRecord.created_at ∧
    seedRecord.updated_at <
      ({ seedRecord with updated_at := 9 } : DbRecord).updated_at :=
  ⟨(c7_update_semantics seedDb 1 seedRecord blankInputs 9
      { seedRecord with updated_at := 9 } (by decide) (by decide) (by decide)
      (by decide)).2.2.1,
   (c7_update_semantics seedDb 1 seedRecord blankInputs 9
      { seedRecord with updated_at := 9 } (by decide) (by decide) (by decide)
      (by decide)).2.2.2.2⟩

/-- C10: a blank input on any non-mandatory prompt returns the current
value unchanged; on the add path that current value is the empty string,
so a record added with pets answered yes and dogs left blank is stored
with `dogs` equal to the empty string (not NULL), and `add_record`
persists the assembled record as-is. -/
theorem c10_blank_optional_inputs :
    (∀ vk pk cur, edit_prompt_and_validation vk pk false cur "" = some cur) ∧
    (∀ inp now r, assembleAdd inp now = some r → inp.dogs = "" →
      r.pets = SqlVal.num 1 → r.dogs = SqlVal.text "") ∧
    (∀ db inp now db2, add_record db inp now = some db2 →
      ∃ r, assembleAdd inp now = some r ∧
        db2.rows = db.rows ++ [(db.nextId, r)]) := by
  refine ⟨?_, ?_, ?_⟩
  · intro vk pk cur
    cases vk <;> rfl
  · intro inp now r h hdog hp
    unfold assembleAdd at h
    obtain ⟨t1, h1, h⟩ := bind_some_inv h
    obtain ⟨t2, h2, h⟩ := bind_some_inv h
    obtain ⟨t3, h3, h⟩ := bind_some_inv h
    obtain ⟨t4, h4, h⟩ := bind_some_inv h
    obtain ⟨t5, h5, h⟩ := bind_some_inv h
    injection h with h
    subst h
    have hp2 : t1.2.2.2 = SqlVal.num 1 := hp
    show t2.1 = SqlVal.text ""
    unfold promptsConditional at h2
    obtain ⟨dogs, hd, h2⟩ := bind_some_inv h2
    obtain ⟨cri, hc, h2⟩ := bind_some_inv h2
    obtain ⟨med, hm, h2⟩ := bind_some_inv h2
    injection h2 with h2
    subst h2
    show dogs = SqlVal.text ""
    unfold conditionalPrompt at hd
    rw [if_pos hp2, hdog] at hd
    have hblank : edit_prompt_and_validation VKind.bool PKind.other false
        (SqlVal.text "") "" = some (SqlVal.text "") := rfl
    rw [hblank] at hd
    injection hd with hd
    exact hd.symm
  · intro db inp now db2 h
    unfold add_record at h
    obtain ⟨r, hr, hins⟩ := bind_some_inv h
    obtain ⟨hok, hdb2⟩ := dbInsert_inv db r db2 hins
    exact ⟨r, hr, by rw [hdb2]⟩

theorem c10_blank_optional_inputs_witness :
    ((assembleAdd goodInputs 7).getD default).dogs = SqlVal.text "" :=
  (c10_blank_optional_inputs).2.1 goodInputs 7
    ((assembleAdd goodInputs 7).getD default) (by decide) rfl (by decide)

theorem piecesMatch_cons_intro {pc : Piece} {ps : List Piece} {u v : List Char}
    (hf : PieceFits pc u) (hm : PiecesMatch ps v) :
    PiecesMatch (pc :: ps) (u ++ v) :=
  ⟨u, v, rfl, hf, hm⟩

theorem piecesMatch_last {pc : Piece} {u : List Char} (hf : PieceFits pc u) :
    PiecesMatch [pc] u :=
  ⟨u, [], (List.append_nil u).symm, hf, rfl⟩

theorem single_char_block (ch : Char) (u : List Char)
    (hall : ∀ c ∈ u, decide (c = ch) = true)
    (h1 : 1 ≤ u.length) (h2 : u.length ≤ 1) : u = [ch] := by
  have hlen : u.length = 1 := le_antisymm h2 h1
  obtain ⟨c, hc⟩ := List.length_eq_one.mp hlen
  subst hc
  have hc2 := hall c (by simp)
  rw [decide_eq_true_eq] at hc2
  rw [hc2]

/-- C9: `validate_address` accepts exactly the strings of the spec's
address grammar (digits, gap, street up to a comma, city of
letters/space/period up to a comma, exactly two uppercase letters, gap,
exactly five digits); in particular a 4-letter state, a 4-digit zip and a
missing comma are all rejected. -/
theorem c9_validate_address_grammar :
    (∀ s : String, validate_address s = true ↔ addressGrammarSpec s) ∧
    validate_address "123 Main St, Springfield, CALI 90210" = false ∧
    validate_address "123 Main St, Springfield, CA 9021" = false ∧
    validate_address "123 Main St Springfield CA 90210" = false := by
  refine ⟨?_, by decide, by decide, by decide⟩
  intro s
  rw [validate_address, matchPieces_iff]
  constructor
  · intro h
    obtain ⟨num, v1, he1, hf1, h⟩ := h
    obtain ⟨gap1, v2, he2, hf2, h⟩ := h
    obtain ⟨street, v3, he3, hf3, h⟩ := h
    obtain ⟨com1, v4, he4, hf4, h⟩ := h
    obtain ⟨gap2, v5, he5, hf5, h⟩ := h
    obtain ⟨city, v6, he6, hf6, h⟩ := h
    obtain ⟨com2, v7, he7, hf7, h⟩ := h
    obtain ⟨gap3, v8, he8, hf8, h⟩ := h
    obtain ⟨stateU, v9, he9, hf9, h⟩ := h
    obtain ⟨gap4, v10, he10, hf10, h⟩ := h
    obtain ⟨zipD, v11, he11, hf11, h⟩ := h
    have hv11 : v11 = [] := h
    subst hv11
    subst he11
    subst he10
    subst he9
    subst he8
    subst he7
    subst he6
    subst he5
    subst he4
    subst he3
    subst he2
    obtain ⟨hc1, hl1, hh1⟩ := hf1
    obtain ⟨hc2, hl2, hh2⟩ := hf2
    obtain ⟨hc3, hl3, hh3⟩ := hf3
    obtain ⟨hc4, hl4, hh4⟩ := hf4
    obtain ⟨hc5, hl5, hh5⟩ := hf5
    obtain ⟨hc6, hl6, hh6⟩ := hf6
    obtain ⟨hc7, hl7, hh7⟩ := hf7
    obtain ⟨hc8, hl8, hh8⟩ := hf8
    obtain ⟨hc9, hl9, hh9⟩ := hf9
    obtain ⟨hc10, hl10, hh10⟩ := hf10
    obtain ⟨hc11, hl11, hh11⟩ := hf11
    have hcom1 : com1 = [','] := single_char_block ',' com1 hc4 hl4 (hh4 1 rfl)
    have hcom2 : com2 = [','] := single_char_block ',' com2 hc7 hl7 (hh7 1 rfl)
    subst hcom1
    subst hcom2
    refine ⟨num, gap1, street, gap2, city, gap3, stateU, gap4, zipD,
      ?_, List.length_pos.mp hl1, hc1,
      List.length_pos.mp hl2, hc2,
      List.length_pos.mp hl3, ?_,
      hc5,
      List.length_pos.mp hl6, ?_,
      hc8,
      le_antisymm (hh9 2 rfl) hl9, hc9,
      List.length_pos.mp hl10, hc10,
      le_antisymm (hh11 5 rfl) hl11, hc11⟩
    · rw [List.append_nil] at he1
      simp only [List.append_assoc]
      exact he1
    · intro c hc
      have h2 := hc3 c hc
      simp only [isDotChar, Bool.not_eq_true', decide_eq_false_iff_not] at h2
      exact h2
    · intro c hc
      have h2 := hc6 c hc
      simp only [isCityChar, Bool.or_eq_true, decide_eq_true_eq] at h2
      rcases h2 with (h2 | h2) | h2
      · exact Or.inl h2
      · exact Or.inr (Or.inl h2)
      · exact Or.inr (Or.inr h2)
  · intro hg
    obtain ⟨num, gap1, street, gap2, city, gap3, stateU, gap4, zipD, heq,
      hnum, hnumc, hgap1, hgap1c, hstreet, hstreetc, hgap2c, hcity, hcityc,
      hgap3c, hstlen, hstc, hgap4, hgap4c, hziplen, hzipc⟩ := hg
    have fNum : PieceFits ⟨Char.isDigit, 1, none⟩ num :=
      ⟨hnumc, List.length_pos.mpr hnum, fun h hh => nomatch hh⟩
    have fGap1 : PieceFits ⟨isPyWhitespace, 1, none⟩ gap1 :=
      ⟨hgap1c, List.length_pos.mpr hgap1, fun h hh => nomatch hh⟩
    have fStreet : PieceFits ⟨isDotChar, 1, none⟩ street := by
      refine ⟨?_, List.length_pos.mpr hstreet, fun h hh => nomatch hh⟩
      intro c hc
      simp only [isDotChar, Bool.not_eq_true', decide_eq_false_iff_not]
      exact hstreetc c hc
    have fComma : PieceFits ⟨fun c => c = ',', 1, some 1⟩ [','] := by
      refine ⟨by simp, by simp, ?_⟩
      intro h hh
      cases hh
      simp
    have fGap2 : PieceFits ⟨isPyWhitespace, 0, none⟩ gap2 :=
      ⟨hgap2c, Nat.zero_le _, fun h hh => nomatch hh⟩
    have fCity : PieceFits ⟨isCityChar, 1, none⟩ city := by
      refine ⟨?_, List.length_pos.mpr hcity, fun h hh => nomatch hh⟩
      intro c hc
      simp only [isCityChar, Bool.or_eq_true, decide_eq_true_eq]
      rcases hcityc c hc with h2 | h2 | h2
      · exact Or.inl (Or.inl h2)
      · exact Or.inl (Or.inr h2)
      · exact Or.inr h2
    have fGap3 : PieceFits ⟨isPyWhitespace, 0, none⟩ gap3 :=
      ⟨hgap3c, Nat.zero_le _, fun h hh => nomatch hh⟩
    have fState : PieceFits ⟨Char.isUpper, 2, some 2⟩ stateU := by
      refine ⟨hstc, by rw [hstlen], ?_⟩
      intro h hh
      cases hh
      rw [hstlen]
    have fGap4 : PieceFits ⟨isPyWhitespace, 1, none⟩ gap4 :=
      ⟨hgap4c, List.length_pos.mpr hgap4, fun h hh => nomatch hh⟩
    have fZip : PieceFits ⟨Char.isDigit, 5, some 5⟩ zipD := by
      refine ⟨hzipc, by rw [hziplen], ?_⟩
      intro h hh
      cases hh
      rw [hziplen]
    rw [heq]
    simp only [List.append_assoc]
    exact piecesMatch_cons_intro fNum
      (piecesMatch_cons_intro fGap1
      (piecesMatch_cons_intro fStreet
      (piecesMatch_cons_intro fComma
      (piecesMatch_cons_intro fGap2
      (piecesMatch_cons_intro fCity
      (piecesMatch_cons_intro fComma
      (piecesMatch_cons_intro fGap3
      (piecesMatch_cons_intro fState
      (piecesMatch_cons_intro fGap4
      (piecesMatch_last fZip))))))))))
